import Mathlib

/-!
Shallow embedding of the SupConLoss module (src/losses.py) of SupContrast_mrcl.

The tensor program is modelled over the reals: a features tensor is a shape
(a list of dimension sizes) together with a flat row-major data function, the
per-call intermediates (contrast feature, logits, masks, log-probabilities)
are functions of natural-number indices, and the error paths of forward are
an Except value whose error constructors follow the error taxonomy of the
specification (ShapeError, ArgumentConflictError, InvalidConfigurationError).
All real arithmetic is exact; the division and logarithm are the Mathlib
total functions (division by zero and log of zero give zero).
-/

namespace SupCon

/-- Error taxonomy of the specification: shapeError covers both the tensor
rank check and the label-count check, the other two constructors name the
argument-conflict check and the contrast-mode check. The source raises
ValueError at each of these code sites; the constructor used here records
which check fired. -/
inductive SupConError where
  | shapeError
  | argumentConflictError
  | invalidConfigurationError
  deriving DecidableEq

/-- Hyperparameters stored by the constructor of SupConLoss in losses.py:
temperature, contrast_mode and base_temperature, kept as given. -/
structure SupConLoss where
  temperature : ℝ
  contrast_mode : String
  base_temperature : ℝ

/-- Embedding of the constructor of SupConLoss: it stores the three
hyperparameters unexamined and has no failing path. -/
def SupConLoss.init (temperature : ℝ) (contrast_mode : String)
    (base_temperature : ℝ) : Except SupConError SupConLoss :=
  .ok ⟨temperature, contrast_mode, base_temperature⟩

/-- Embedding of torch.eye(batch_size): entry (i, j) is 1 when i = j, else 0. -/
def eyeMask : ℕ → ℕ → ℝ :=
  fun i j => if i = j then 1 else 0

/-- Embedding of torch.eq(labels, labels.T).float(): entry (i, j) is 1 when
label i equals label j, else 0. -/
def labelMask (L : List ℤ) : ℕ → ℕ → ℝ :=
  fun i j => if L.getD i 0 = L.getD j 0 then 1 else 0

/-- Embedding of the labels/mask resolution chain of forward (lines 45-55 of
losses.py), in source order: both given is the argument conflict, neither
given builds the identity mask, labels alone are length-checked against the
batch size and turned into the label-equality mask, a mask alone is cast to
float and used as is. -/
def resolveMask (B : ℕ) (labels : Option (List ℤ))
    (maskArg : Option (ℕ → ℕ → ℝ)) : Except SupConError (ℕ → ℕ → ℝ) :=
  match labels, maskArg with
  | some _, some _ => .error .argumentConflictError
  | none, none => .ok eyeMask
  | some L, none =>
      if L.length = B then .ok (labelMask L) else .error .shapeError
  | none, some m => .ok m

/-- Embedding of torch.cat(torch.unbind(features, dim=1), dim=0): flattened
row i holds view i / B of sample i % B, so the V view blocks of B samples
are stacked view-major. -/
def contrastFeature (B : ℕ) (f : ℕ → ℕ → ℕ → ℝ) : ℕ → ℕ → ℝ :=
  fun i k => f (i % B) (i / B) k

/-- Embedding of the scatter call of losses.py (lines 79-84): starting from
torch.ones_like(mask), row r receives a zero at column index r (the index
tensor is arange(batch_size * anchor_count) viewed as a column), so entry
(r, c) is 0 when c = r and 1 otherwise. -/
def logitsMask (r c : ℕ) : ℝ :=
  if c = r then 0 else 1

/-- Embedding of mask.repeat(anchor_count, contrast_count): tile entry (r, c)
reads the pre-tile mask at (r % B, c % B). -/
def tiledMask (B : ℕ) (mask : ℕ → ℕ → ℝ) : ℕ → ℕ → ℝ :=
  fun r c => mask (r % B) (c % B)

/-- Embedding of mask = mask * logits_mask (line 85): the tiled mask with the
self-contrast column of each row zeroed. -/
def maskedMask (B : ℕ) (mask : ℕ → ℕ → ℝ) : ℕ → ℕ → ℝ :=
  fun r c => tiledMask B mask r c * logitsMask r c

/-- Embedding of torch.max(anchor_dot_contrast, dim=1): the maximum of the
first n entries of a row (n is always positive on the paths that reach it). -/
noncomputable def rowMax (n : ℕ) (g : ℕ → ℝ) : ℝ :=
  ((List.range n).map g).foldr max (g 0)

/-- Embedding of anchor_dot_contrast (lines 69-71): inner products of anchor
row r against contrast row c over the D feature coordinates, divided by the
temperature. -/
noncomputable def adcOf (B D : ℕ) (f : ℕ → ℕ → ℕ → ℝ) (anchor : ℕ → ℕ → ℝ)
    (t : ℝ) : ℕ → ℕ → ℝ :=
  fun r c => (∑ k ∈ Finset.range D, anchor r k * contrastFeature B f c k) / t

/-- Embedding of logits = anchor_dot_contrast - logits_max.detach(): each row
shifted by its own maximum over the V * B contrast columns. -/
noncomputable def shiftedLogits (B V D : ℕ) (f : ℕ → ℕ → ℕ → ℝ)
    (anchor : ℕ → ℕ → ℝ) (t : ℝ) : ℕ → ℕ → ℝ :=
  fun r c => adcOf B D f anchor t r c - rowMax (V * B) (adcOf B D f anchor t r)

/-- Embedding of exp_logits.sum(1, keepdim=True) for a given logits matrix L:
the row sum of exp(L) * logits_mask over the V * B contrast columns. -/
noncomputable def denomOf (B V : ℕ) (L : ℕ → ℕ → ℝ) (r : ℕ) : ℝ :=
  ∑ c ∈ Finset.range (V * B), Real.exp (L r c) * logitsMask r c

/-- Embedding of log_prob = logits - torch.log(exp_logits.sum(1)) for a given
logits matrix L. -/
noncomputable def logProbOf (B V : ℕ) (L : ℕ → ℕ → ℝ) (r c : ℕ) : ℝ :=
  L r c - Real.log (denomOf B V L r)

/-- Embedding of mask.sum(1) (the divisor of line 92): the number of positive
entries of row r of the tiled, self-excluded mask. -/
noncomputable def posCount (B V : ℕ) (mask : ℕ → ℕ → ℝ) (r : ℕ) : ℝ :=
  ∑ c ∈ Finset.range (V * B), maskedMask B mask r c

/-- Embedding of mean_log_prob_pos = (mask * log_prob).sum(1) / mask.sum(1)
for a given logits matrix L. -/
noncomputable def meanLogProbPos (B V : ℕ) (mask : ℕ → ℕ → ℝ)
    (L : ℕ → ℕ → ℝ) (r : ℕ) : ℝ :=
  (∑ c ∈ Finset.range (V * B), maskedMask B mask r c * logProbOf B V L r c) /
    posCount B V mask r

/-- Embedding of the reduction of lines 95-96 for a given logits matrix L:
per-row losses -(t / bt) * mean_log_prob_pos, averaged over all
anchor_count * batch_size rows. -/
noncomputable def lossFromLogits (B V A : ℕ) (mask : ℕ → ℕ → ℝ) (t bt : ℝ)
    (L : ℕ → ℕ → ℝ) : ℝ :=
  (∑ r ∈ Finset.range (A * B), -(t / bt) * meanLogProbPos B V mask L r) /
    (A * B)

/-- The loss the source computes: the reduction applied to the max-shifted
logits. -/
noncomputable def lossVal (B V D : ℕ) (f : ℕ → ℕ → ℕ → ℝ)
    (mask : ℕ → ℕ → ℝ) (t bt : ℝ) (A : ℕ) (anchor : ℕ → ℕ → ℝ) : ℝ :=
  lossFromLogits B V A mask t bt (shiftedLogits B V D f anchor t)

/-- Modelled from the spec: the same reduction applied to the raw logits
without the per-row maximum shift, the comparison point of the numerical
stability statement of the specification. -/
noncomputable def lossValRaw (B V D : ℕ) (f : ℕ → ℕ → ℕ → ℝ)
    (mask : ℕ → ℕ → ℝ) (t bt : ℝ) (A : ℕ) (anchor : ℕ → ℕ → ℝ) : ℝ :=
  lossFromLogits B V A mask t bt (adcOf B D f anchor t)

/-- Embedding of the contrast-mode dispatch (lines 59-66): mode "one" takes
the view-0 slice as the single anchor block, mode "all" takes the whole
contrast feature with anchor_count = V, any other mode is the configuration
error. -/
noncomputable def modeDispatch (C : SupConLoss) (B V D : ℕ)
    (f : ℕ → ℕ → ℕ → ℝ) (mask : ℕ → ℕ → ℝ) : Except SupConError ℝ :=
  if C.contrast_mode = "one" then
    .ok (lossVal B V D f mask C.temperature C.base_temperature 1
      (fun r => f r 0))
  else if C.contrast_mode = "all" then
    .ok (lossVal B V D f mask C.temperature C.base_temperature V
      (contrastFeature B f))
  else .error .invalidConfigurationError

/-- Embedding of features.view(features.shape[0], features.shape[1], -1)
applied to the flat row-major data of the tensor: coordinate (b, v, d) of the
flattened [B, V, D] tensor reads flat cell (b * V + v) * D + d. -/
def flatFeature (V D : ℕ) (data : ℕ → ℝ) : ℕ → ℕ → ℕ → ℝ :=
  fun b v d => data ((b * V + v) * D + d)

/-- Embedding of SupConLoss.forward over a features tensor given as its shape
list and flat row-major data, in source order: the rank check of line 38, the
flattening of line 42, batch_size = shape[0], the labels/mask resolution of
lines 45-55, then the contrast-mode dispatch and the numeric computation. -/
noncomputable def forward (C : SupConLoss) (shape : List ℕ) (data : ℕ → ℝ)
    (labels : Option (List ℤ)) (maskArg : Option (ℕ → ℕ → ℝ)) :
    Except SupConError ℝ :=
  if shape.length < 3 then .error .shapeError
  else
    match resolveMask (shape.headD 0) labels maskArg with
    | .error e => .error e
    | .ok mask =>
        modeDispatch C (shape.headD 0) ((shape.drop 1).headD 0)
          ((shape.drop 2).prod)
          (flatFeature ((shape.drop 1).headD 0) ((shape.drop 2).prod) data)
          mask

/-- The logits mask entries are nonnegative. -/
theorem logitsMask_nonneg (r c : ℕ) : 0 ≤ logitsMask r c := by
  unfold logitsMask
  split <;> norm_num

/-- The mask resolution never produces the configuration error: its failing
paths are the argument conflict and the label-count check only. -/
theorem resolveMask_error_cases (B : ℕ) (labels : Option (List ℤ))
    (maskArg : Option (ℕ → ℕ → ℝ)) (e : SupConError)
    (h : resolveMask B labels maskArg = .error e) :
    e = .shapeError ∨ e = .argumentConflictError := by
  rcases labels with _ | L <;> rcases maskArg with _ | m <;>
    simp only [resolveMask] at h
  · simp at h
  · simp at h
  · split at h
    · simp at h
    · simp at h
      exact Or.inl h.symm
  · simp at h
    exact Or.inr h.symm

/-- A features tensor of rank below 3 fails the rank check first, whatever
the other arguments and the configured mode. -/
theorem forward_rank_lt (C : SupConLoss) (shape : List ℕ) (data : ℕ → ℝ)
    (labels : Option (List ℤ)) (maskArg : Option (ℕ → ℕ → ℝ))
    (h : shape.length < 3) :
    forward C shape data labels maskArg = .error .shapeError := by
  unfold forward
  rw [if_pos h]

/-- Supplying both labels and a mask to a rank-checked call fails with the
argument conflict, whatever their contents and the configured mode. -/
theorem forward_both_given (C : SupConLoss) (shape : List ℕ) (data : ℕ → ℝ)
    (L : List ℤ) (m : ℕ → ℕ → ℝ) (h : 3 ≤ shape.length) :
    forward C shape data (some L) (some m) = .error .argumentConflictError := by
  unfold forward
  rw [if_neg (by omega)]
  simp [resolveMask]

/-- When the rank check passes and the mask resolution fails, forward
propagates the resolution error. -/
theorem forward_err_mask (C : SupConLoss) (shape : List ℕ) (data : ℕ → ℝ)
    (labels : Option (List ℤ)) (maskArg : Option (ℕ → ℕ → ℝ))
    (e : SupConError) (h3 : ¬shape.length < 3)
    (hres : resolveMask (shape.headD 0) labels maskArg = .error e) :
    forward C shape data labels maskArg = .error e := by
  unfold forward
  rw [if_neg h3, hres]

/-- When the rank check passes and the mask resolution succeeds, forward is
the mode dispatch on the flattened features and the resolved mask. -/
theorem forward_ok_mask (C : SupConLoss) (shape : List ℕ) (data : ℕ → ℝ)
    (labels : Option (List ℤ)) (maskArg : Option (ℕ → ℕ → ℝ))
    (m : ℕ → ℕ → ℝ) (h3 : ¬shape.length < 3)
    (hres : resolveMask (shape.headD 0) labels maskArg = .ok m) :
    forward C shape data labels maskArg
      = modeDispatch C (shape.headD 0) ((shape.drop 1).headD 0)
          ((shape.drop 2).prod)
          (flatFeature ((shape.drop 1).headD 0) ((shape.drop 2).prod) data)
          m := by
  unfold forward
  rw [if_neg h3, hres]

/-- C8: with labels = none and mask = none, forward builds exactly the
identity mask of the batch: entry (i, j) is 1 precisely when i = j and 0
precisely when i differs from j. -/
theorem supcon_default_mask (B i j : ℕ) :
    resolveMask B none none = .ok eyeMask
    ∧ (eyeMask i j = 1 ↔ i = j) ∧ (eyeMask i j = 0 ↔ i ≠ j) := by
  refine ⟨rfl, ?_, ?_⟩ <;> unfold eyeMask <;> split <;> simp_all

/-- C3: when labels of matching length (and no mask) are supplied, the
pre-tile mask is the label-equality indicator, which is 1 exactly on
equal-label pairs, 0 exactly on unequal-label pairs, and symmetric. -/
theorem supcon_label_mask (B : ℕ) (L : List ℤ) (h : L.length = B) (i j : ℕ)
    (hi : i < B) (hj : j < B) :
    resolveMask B (some L) none = .ok (labelMask L)
    ∧ (labelMask L i j = 1 ↔ L.getD i 0 = L.getD j 0)
    ∧ (labelMask L i j = 0 ↔ ¬L.getD i 0 = L.getD j 0)
    ∧ labelMask L i j = labelMask L j i := by
  refine ⟨by simp [resolveMask, h], ?_, ?_, ?_⟩
  · unfold labelMask; split <;> simp_all
  · unfold labelMask; split <;> simp_all
  · unfold labelMask
    by_cases hij : L.getD i 0 = L.getD j 0
    · rw [if_pos hij, if_pos hij.symm]
    · rw [if_neg hij, if_neg fun hh => hij hh.symm]

/-- Witness for C3 at B = 2, L = [5, 7], i = 0, j = 1. -/
theorem supcon_label_mask_witness :
    resolveMask 2 (some [5, 7]) none = .ok (labelMask [5, 7])
    ∧ (labelMask [5, 7] 0 1 = 1 ↔ ([5, 7] : List ℤ).getD 0 0 = ([5, 7] : List ℤ).getD 1 0)
    ∧ (labelMask [5, 7] 0 1 = 0 ↔ ¬([5, 7] : List ℤ).getD 0 0 = ([5, 7] : List ℤ).getD 1 0)
    ∧ labelMask [5, 7] 0 1 = labelMask [5, 7] 1 0 :=
  supcon_label_mask 2 [5, 7] rfl 0 1 (by norm_num) (by norm_num)

/-- C1: on the tiled [anchor_count * B, V * B] logits grid, with
anchor_count either 1 (mode one) or V (mode all), every row r has its unique
zero of logits_mask exactly at column r, the flattened identity of its own
anchor, every other in-range column holding a one; column r is in range. -/
theorem supcon_logits_mask (B V A : ℕ) (hB : 1 ≤ B) (hV : 1 ≤ V)
    (hA : A = 1 ∨ A = V) (r : ℕ) (hr : r < A * B) (c : ℕ) (hc : c < V * B) :
    ((logitsMask r c = 0 ↔ c = r) ∧ (logitsMask r c = 1 ↔ c ≠ r))
    ∧ r < V * B := by
  have hAV : A * B ≤ V * B := by
    rcases hA with h | h <;> subst h
    · exact Nat.mul_le_mul_right B hV
    · exact le_refl _
  refine ⟨⟨?_, ?_⟩, lt_of_lt_of_le hr hAV⟩
  · unfold logitsMask; split <;> simp_all
  · unfold logitsMask; split <;> simp_all

/-- Witness for C1 at B = 2, V = 2, anchor_count = 2, row 1, column 3. -/
theorem supcon_logits_mask_witness :
    ((logitsMask 1 3 = 0 ↔ 3 = 1) ∧ (logitsMask 1 3 = 1 ↔ 3 ≠ 1))
    ∧ 1 < 2 * 2 :=
  supcon_logits_mask 2 2 2 (by norm_num) (by norm_num) (Or.inr rfl) 1
    (by norm_num) 3 (by norm_num)

/-- Counterexample to C6 as stated: with rank-2 features and both labels and
mask supplied, forward fails with the shape error of the rank check, not
with the argument conflict. -/
theorem supcon_conflict_counterexample :
    forward ⟨1, "all", 1⟩ [2, 3] (fun _ => 0) (some [0, 0]) (some eyeMask)
      = .error .shapeError
    ∧ (Except.error SupConError.shapeError : Except SupConError ℝ)
      ≠ .error .argumentConflictError := by
  constructor
  · exact forward_rank_lt _ _ _ _ _ (by norm_num)
  · simp

/-- C6 (amended): for every features input of rank at least 3, calling
forward with both labels and mask supplied fails with the argument conflict,
regardless of the contents of labels and mask. -/
theorem supcon_conflict (C : SupConLoss) (shape : List ℕ) (data : ℕ → ℝ)
    (L : List ℤ) (m : ℕ → ℕ → ℝ) (h : 3 ≤ shape.length) :
    forward C shape data (some L) (some m) = .error .argumentConflictError :=
  forward_both_given C shape data L m h

/-- Witness for the amended C6 at a concrete rank-3 input. -/
theorem supcon_conflict_witness :
    forward ⟨1, "bogus", 1⟩ [1, 1, 1] (fun _ => 0) (some [0, 0])
      (some eyeMask) = .error .argumentConflictError :=
  supcon_conflict ⟨1, "bogus", 1⟩ [1, 1, 1] (fun _ => 0) [0, 0] eyeMask
    (by norm_num)

/-- C10: construction never fails and stores any hyperparameters as given,
the rank check precedes everything (so a rank-2 call fails with the shape
error even under an invalid mode), and the argument conflict precedes the
mode check (so a rank-checked call with both labels and mask fails with the
argument conflict even under an invalid mode). -/
theorem supcon_init_and_check_order :
    (∀ (t : ℝ) (m : String) (bt : ℝ), SupConLoss.init t m bt = .ok ⟨t, m, bt⟩)
    ∧ (∀ (C : SupConLoss) (shape : List ℕ) (data : ℕ → ℝ)
        (labels : Option (List ℤ)) (maskArg : Option (ℕ → ℕ → ℝ)),
        shape.length < 3 →
        forward C shape data labels maskArg = .error .shapeError)
    ∧ (∀ (C : SupConLoss) (shape : List ℕ) (data : ℕ → ℝ) (L : List ℤ)
        (m : ℕ → ℕ → ℝ), 3 ≤ shape.length →
        forward C shape data (some L) (some m)
          = .error .argumentConflictError) :=
  ⟨fun _ _ _ => rfl, fun C shape data labels maskArg h =>
    forward_rank_lt C shape data labels maskArg h,
   fun C shape data L m h => forward_both_given C shape data L m h⟩

/-- Witness for C10: construction accepts zero temperature, a negative base
temperature and an unknown mode; a rank-2 call under an invalid mode gives
the shape error; a rank-3 call under an invalid mode with both labels and
mask gives the argument conflict. -/
theorem supcon_init_and_check_order_witness :
    SupConLoss.init 0 "bogus" (-1) = .ok ⟨0, "bogus", -1⟩
    ∧ forward ⟨1, "bogus", 1⟩ [2, 2] (fun _ => 0) (some [0]) (some eyeMask)
        = .error .shapeError
    ∧ forward ⟨1, "bogus", 1⟩ [2, 2, 2] (fun _ => 0) (some [0])
        (some eyeMask) = .error .argumentConflictError :=
  ⟨supcon_init_and_check_order.1 0 "bogus" (-1),
   supcon_init_and_check_order.2.1 ⟨1, "bogus", 1⟩ [2, 2] (fun _ => 0)
     (some [0]) (some eyeMask) (by norm_num),
   supcon_init_and_check_order.2.2 ⟨1, "bogus", 1⟩ [2, 2, 2] (fun _ => 0)
     [0] eyeMask (by norm_num)⟩

/-- C9: the configuration error is never raised when the configured mode is
"one" or "all", whatever the input; and under any other mode value, every
call that passes the rank check and resolves its mask fails with the
configuration error. -/
theorem supcon_mode_check (C : SupConLoss) (shape : List ℕ) (data : ℕ → ℝ)
    (labels : Option (List ℤ)) (maskArg : Option (ℕ → ℕ → ℝ)) :
    ((C.contrast_mode = "one" ∨ C.contrast_mode = "all") →
      forward C shape data labels maskArg ≠ .error .invalidConfigurationError)
    ∧ (C.contrast_mode ≠ "one" → C.contrast_mode ≠ "all" →
      3 ≤ shape.length →
      ∀ m, resolveMask (shape.headD 0) labels maskArg = .ok m →
      forward C shape data labels maskArg
        = .error .invalidConfigurationError) := by
  constructor
  · intro hm
    by_cases h3 : shape.length < 3
    · rw [forward_rank_lt C shape data labels maskArg h3]; simp
    · cases hres : resolveMask (shape.headD 0) labels maskArg with
      | error e =>
          rw [forward_err_mask C shape data labels maskArg e h3 hres]
          rcases resolveMask_error_cases _ _ _ e hres with he | he <;>
            subst he <;> simp
      | ok m =>
          rw [forward_ok_mask C shape data labels maskArg m h3 hres]
          unfold modeDispatch
          rcases hm with h1 | h1
          · rw [if_pos h1]; simp
          · by_cases h2 : C.contrast_mode = "one"
            · rw [if_pos h2]; simp
            · rw [if_neg h2, if_pos h1]; simp
  · intro h1 h2 h3 m hres
    rw [forward_ok_mask C shape data labels maskArg m (by omega) hres]
    unfold modeDispatch
    rw [if_neg h1, if_neg h2]

/-- Witness for C9: mode "one" never hits the configuration error; the
unknown mode "bogus" hits it on a call that passes the earlier checks. -/
theorem supcon_mode_check_witness :
    forward ⟨1, "one", 1⟩ [1, 1, 1] (fun _ => 0) none none
      ≠ .error .invalidConfigurationError
    ∧ forward ⟨1, "bogus", 1⟩ [1, 1, 1] (fun _ => 0) none none
      = .error .invalidConfigurationError :=
  ⟨(supcon_mode_check ⟨1, "one", 1⟩ [1, 1, 1] (fun _ => 0) none none).1
      (Or.inl rfl),
   (supcon_mode_check ⟨1, "bogus", 1⟩ [1, 1, 1] (fun _ => 0) none none).2
      (by decide) (by decide) (by norm_num) eyeMask rfl⟩

/-- Counterexample to C5 as stated: rank-3 features with labels of the wrong
length but with a mask also supplied fail with the argument conflict, not
with a shape error, although the claimed condition (labels supplied, count
different from the batch size) holds. -/
theorem supcon_shape_counterexample :
    forward ⟨1, "all", 1⟩ [1, 1, 1] (fun _ => 0) (some [0, 0]) (some eyeMask)
      = .error .argumentConflictError
    ∧ ([0, 0] : List ℤ).length ≠ ([1, 1, 1] : List ℕ).headD 0
    ∧ (Except.error SupConError.argumentConflictError : Except SupConError ℝ)
      ≠ .error .shapeError :=
  ⟨forward_both_given _ _ _ _ _ (by norm_num), by decide, by simp⟩

/-- C5 (amended): forward fails with a shape error exactly when the features
rank is below 3, or when no mask is supplied and the supplied labels have a
length different from the batch size; moreover every rank-checked input is
processed exactly as its flattening to the three-dimensional shape
[B, V, prod of the remaining dimensions]. -/
theorem supcon_shape_error_iff (C : SupConLoss) (shape : List ℕ)
    (data : ℕ → ℝ) (labels : Option (List ℤ))
    (maskArg : Option (ℕ → ℕ → ℝ)) :
    (forward C shape data labels maskArg = .error .shapeError ↔
      shape.length < 3 ∨ (maskArg = none ∧
        ∃ L, labels = some L ∧ L.length ≠ shape.headD 0))
    ∧ (3 ≤ shape.length →
        forward C shape data labels maskArg
          = forward C [shape.headD 0, (shape.drop 1).headD 0,
              (shape.drop 2).prod] data labels maskArg) := by
  constructor
  · by_cases h3 : shape.length < 3
    · rw [forward_rank_lt C shape data labels maskArg h3]
      simp [h3]
    · rcases labels with _ | L <;> rcases maskArg with _ | m
      · rw [forward_ok_mask C shape data none none eyeMask h3 rfl]
        unfold modeDispatch
        split_ifs <;> simp [h3]
      · rw [forward_ok_mask C shape data none (some m) m h3 rfl]
        unfold modeDispatch
        split_ifs <;> simp [h3]
      · by_cases hl : L.length = shape.headD 0
        · rw [forward_ok_mask C shape data (some L) none (labelMask L) h3
            (by simp only [resolveMask]; rw [if_pos hl])]
          unfold modeDispatch
          split_ifs <;> constructor <;> intro hh <;> simp_all <;> omega
        · rw [forward_err_mask C shape data (some L) none .shapeError h3
            (by simp only [resolveMask]; rw [if_neg hl])]
          constructor
          · intro _
            exact Or.inr ⟨rfl, L, rfl, by simpa using hl⟩
          · intro _
            rfl
      · rw [forward_err_mask C shape data (some L) (some m)
          .argumentConflictError h3 rfl]
        simp [h3]
  · intro h3
    unfold forward
    rw [if_neg (by omega), if_neg (by simp)]
    simp

/-- Witness for the amended C5: a rank-1 input realizes the shape-error side
of the equivalence, and a rank-4 input is processed as its flattening. -/
theorem supcon_shape_error_iff_witness :
    (forward ⟨1, "all", 1⟩ [5] (fun _ => 0) none none = .error .shapeError ↔
      ([5] : List ℕ).length < 3 ∨ ((none : Option (ℕ → ℕ → ℝ)) = none ∧
        ∃ L, (none : Option (List ℤ)) = some L
          ∧ L.length ≠ ([5] : List ℕ).headD 0))
    ∧ forward ⟨1, "all", 1⟩ [1, 1, 2, 3] (fun _ => 0) none none
        = forward ⟨1, "all", 1⟩ [1, 1, 6] (fun _ => 0) none none :=
  ⟨(supcon_shape_error_iff ⟨1, "all", 1⟩ [5] (fun _ => 0) none none).1,
   (supcon_shape_error_iff ⟨1, "all", 1⟩ [1, 1, 2, 3] (fun _ => 0) none
      none).2 (by norm_num)⟩

/-- Rows of the log-prob denominator agree when the logits rows agree. -/
theorem denomOf_congr (B V : ℕ) (L₁ L₂ : ℕ → ℕ → ℝ) (r : ℕ)
    (h : ∀ c, L₁ r c = L₂ r c) : denomOf B V L₁ r = denomOf B V L₂ r := by
  unfold denomOf
  exact Finset.sum_congr rfl fun c _ => by rw [h c]

/-- Log-probability entries agree when the logits rows agree. -/
theorem logProbOf_congr (B V : ℕ) (L₁ L₂ : ℕ → ℕ → ℝ) (r : ℕ)
    (h : ∀ c, L₁ r c = L₂ r c) (c : ℕ) :
    logProbOf B V L₁ r c = logProbOf B V L₂ r c := by
  unfold logProbOf
  rw [h c, denomOf_congr B V L₁ L₂ r h]

/-- The per-row positive mean agrees when the logits rows agree. -/
theorem meanLogProbPos_congr (B V : ℕ) (mask : ℕ → ℕ → ℝ)
    (L₁ L₂ : ℕ → ℕ → ℝ) (r : ℕ) (h : ∀ c, L₁ r c = L₂ r c) :
    meanLogProbPos B V mask L₁ r = meanLogProbPos B V mask L₂ r := by
  unfold meanLogProbPos
  congr 1
  exact Finset.sum_congr rfl fun c _ => by
    rw [logProbOf_congr B V L₁ L₂ r h c]

/-- The reduced loss agrees when the logits matrices agree on all rows of the
anchor grid. -/
theorem lossFromLogits_congr (B V A : ℕ) (mask : ℕ → ℕ → ℝ) (t bt : ℝ)
    (L₁ L₂ : ℕ → ℕ → ℝ) (h : ∀ r, r < A * B → ∀ c, L₁ r c = L₂ r c) :
    lossFromLogits B V A mask t bt L₁ = lossFromLogits B V A mask t bt L₂ := by
  unfold lossFromLogits
  congr 1
  refine Finset.sum_congr rfl fun r hr => ?_
  rw [meanLogProbPos_congr B V mask L₁ L₂ r (h r (Finset.mem_range.mp hr))]

/-- Shifting a logits row by a constant multiplies its masked exponential
row sum by the exponential of the negated constant. -/
theorem denomOf_shift (B V : ℕ) (L : ℕ → ℕ → ℝ) (s : ℕ → ℝ) (r : ℕ) :
    denomOf B V (fun r2 c => L r2 c - s r2) r
      = Real.exp (-s r) * denomOf B V L r := by
  unfold denomOf
  rw [Finset.mul_sum]
  refine Finset.sum_congr rfl fun c _ => ?_
  show Real.exp (L r c - s r) * logitsMask r c
    = Real.exp (-s r) * (Real.exp (L r c) * logitsMask r c)
  rw [sub_eq_add_neg, Real.exp_add]
  ring

/-- When a masked exponential row sum vanishes, every self-excluded mask
entry of that row vanishes: each summand is nonnegative and carries a
positive exponential factor, so the logits-mask factor must be zero. -/
theorem maskedMask_eq_zero_of_denom_zero (B V : ℕ) (mask : ℕ → ℕ → ℝ)
    (L : ℕ → ℕ → ℝ) (r : ℕ) (hd : denomOf B V L r = 0) (c : ℕ)
    (hc : c ∈ Finset.range (V * B)) : maskedMask B mask r c = 0 := by
  have h0 : ∀ x ∈ Finset.range (V * B), 0 ≤ Real.exp (L r x) * logitsMask r x :=
    fun x _ => mul_nonneg (le_of_lt (Real.exp_pos _)) (logitsMask_nonneg r x)
  have hterm := (Finset.sum_eq_zero_iff_of_nonneg h0).mp hd c hc
  have hlm : logitsMask r c = 0 := by
    rcases mul_eq_zero.mp hterm with h | h
    · exact absurd h (Real.exp_ne_zero _)
    · exact h
  unfold maskedMask
  rw [hlm, mul_zero]

/-- When a masked exponential row sum vanishes, the positive mean of that
row is the zero-over-zero convention value 0. -/
theorem meanLogProbPos_of_denom_zero (B V : ℕ) (mask : ℕ → ℕ → ℝ)
    (L : ℕ → ℕ → ℝ) (r : ℕ) (hd : denomOf B V L r = 0) :
    meanLogProbPos B V mask L r = 0 := by
  unfold meanLogProbPos posCount
  have hnum : ∑ c ∈ Finset.range (V * B),
      maskedMask B mask r c * logProbOf B V L r c = 0 :=
    Finset.sum_eq_zero fun c hc => by
      rw [maskedMask_eq_zero_of_denom_zero B V mask L r hd c hc, zero_mul]
  have hden : ∑ c ∈ Finset.range (V * B), maskedMask B mask r c = 0 :=
    Finset.sum_eq_zero fun c hc =>
      maskedMask_eq_zero_of_denom_zero B V mask L r hd c hc
  rw [hnum, hden]
  simp

/-- When the masked exponential row sum is nonzero, the row shift cancels
exactly in the log-probability. -/
theorem logProbOf_shift (B V : ℕ) (L : ℕ → ℕ → ℝ) (s : ℕ → ℝ) (r c : ℕ)
    (hd : denomOf B V L r ≠ 0) :
    logProbOf B V (fun r2 c2 => L r2 c2 - s r2) r c = logProbOf B V L r c := by
  unfold logProbOf
  rw [denomOf_shift B V L s r,
    Real.log_mul (Real.exp_ne_zero _) hd, Real.log_exp]
  ring

/-- The per-row positive mean is invariant under any per-row constant shift
of the logits, with no hypothesis: rows with a vanishing masked exponential
sum have value 0 on both sides, all other rows cancel the shift in the
logarithm. -/
theorem meanLogProbPos_shift (B V : ℕ) (mask : ℕ → ℕ → ℝ)
    (L : ℕ → ℕ → ℝ) (s : ℕ → ℝ) (r : ℕ) :
    meanLogProbPos B V mask (fun r2 c2 => L r2 c2 - s r2) r
      = meanLogProbPos B V mask L r := by
  by_cases hd : denomOf B V L r = 0
  · have hd2 : denomOf B V (fun r2 c2 => L r2 c2 - s r2) r = 0 := by
      rw [denomOf_shift B V L s r, hd, mul_zero]
    rw [meanLogProbPos_of_denom_zero B V mask _ r hd2,
      meanLogProbPos_of_denom_zero B V mask L r hd]
  · unfold meanLogProbPos
    congr 1
    exact Finset.sum_congr rfl fun c _ => by
      rw [logProbOf_shift B V L s r c hd]

/-- The reduced loss is invariant under any per-row constant shift of the
logits. -/
theorem lossFromLogits_shift (B V A : ℕ) (mask : ℕ → ℕ → ℝ) (t bt : ℝ)
    (L : ℕ → ℕ → ℝ) (s : ℕ → ℝ) :
    lossFromLogits B V A mask t bt (fun r c => L r c - s r)
      = lossFromLogits B V A mask t bt L := by
  unfold lossFromLogits
  congr 1
  exact Finset.sum_congr rfl fun r _ => by
    rw [meanLogProbPos_shift B V mask L s r]

/-- With at least two contrast columns, every masked exponential row sum is
positive: some in-range column differs from the row index, and its summand
is a positive exponential. -/
theorem denomOf_pos (B V : ℕ) (L : ℕ → ℕ → ℝ) (r : ℕ) (h2 : 2 ≤ V * B) :
    0 < denomOf B V L r := by
  unfold denomOf
  refine Finset.sum_pos'
    (fun c _ => mul_nonneg (le_of_lt (Real.exp_pos _)) (logitsMask_nonneg r c))
    ⟨if r = 0 then 1 else 0, ?_, ?_⟩
  · rw [Finset.mem_range]
    split <;> omega
  · have hne : (if r = 0 then 1 else 0) ≠ r := by
      split <;> omega
    have hlm : logitsMask r (if r = 0 then 1 else 0) = 1 := by
      unfold logitsMask
      rw [if_neg hne]
    rw [hlm, mul_one]
    exact Real.exp_pos _

/-- C2: the loss computed from the max-shifted logits equals, in exact
arithmetic, the loss computed from the raw logits, for every input and both
anchor choices; and whenever the contrast grid has at least two columns the
individual log-probabilities are unchanged as well. -/
theorem supcon_stability (B V D : ℕ) (f : ℕ → ℕ → ℕ → ℝ)
    (anchor : ℕ → ℕ → ℝ) (mask : ℕ → ℕ → ℝ) (t bt : ℝ) (A : ℕ) :
    lossVal B V D f mask t bt A anchor = lossValRaw B V D f mask t bt A anchor
    ∧ (2 ≤ V * B → ∀ r c,
        logProbOf B V (shiftedLogits B V D f anchor t) r c
          = logProbOf B V (adcOf B D f anchor t) r c) := by
  constructor
  · unfold lossVal lossValRaw shiftedLogits
    exact lossFromLogits_shift B V A mask t bt (adcOf B D f anchor t)
      (fun r => rowMax (V * B) (adcOf B D f anchor t r))
  · intro h2 r c
    have hd : denomOf B V (adcOf B D f anchor t) r ≠ 0 :=
      ne_of_gt (denomOf_pos B V (adcOf B D f anchor t) r h2)
    unfold shiftedLogits
    exact logProbOf_shift B V (adcOf B D f anchor t)
      (fun r => rowMax (V * B) (adcOf B D f anchor t r)) r c hd

/-- Witness for C2 at B = 1, V = 2, D = 1, zero features, unit temperature,
mode all. -/
theorem supcon_stability_witness :
    lossVal 1 2 1 (fun _ _ _ => 0) eyeMask 1 1 2
        (contrastFeature 1 (fun _ _ _ => 0))
      = lossValRaw 1 2 1 (fun _ _ _ => 0) eyeMask 1 1 2
        (contrastFeature 1 (fun _ _ _ => 0))
    ∧ logProbOf 1 2
        (shiftedLogits 1 2 1 (fun _ _ _ => 0)
          (contrastFeature 1 (fun _ _ _ => 0)) 1) 0 1
      = logProbOf 1 2
        (adcOf 1 1 (fun _ _ _ => 0) (contrastFeature 1 (fun _ _ _ => 0)) 1)
        0 1 :=
  ⟨(supcon_stability 1 2 1 (fun _ _ _ => 0)
      (contrastFeature 1 (fun _ _ _ => 0)) eyeMask 1 1 2).1,
   (supcon_stability 1 2 1 (fun _ _ _ => 0)
      (contrastFeature 1 (fun _ _ _ => 0)) eyeMask 1 1 2).2 (by norm_num) 0 1⟩

/-- Shifted logits rows agree when the anchor rows agree. -/
theorem shiftedLogits_anchor_congr (B V D : ℕ) (f : ℕ → ℕ → ℕ → ℝ)
    (a₁ a₂ : ℕ → ℕ → ℝ) (t : ℝ) (r : ℕ) (h : ∀ k, a₁ r k = a₂ r k) (c : ℕ) :
    shiftedLogits B V D f a₁ t r c = shiftedLogits B V D f a₂ t r c := by
  have hadc : adcOf B D f a₁ t r = adcOf B D f a₂ t r := by
    funext c2
    unfold adcOf
    congr 1
    exact Finset.sum_congr rfl fun k _ => by rw [h k]
  unfold shiftedLogits
  rw [hadc]

/-- The loss value agrees for two anchor functions that agree on every row
of the anchor grid. -/
theorem lossVal_anchor_congr (B V D : ℕ) (f : ℕ → ℕ → ℕ → ℝ)
    (mask : ℕ → ℕ → ℝ) (t bt : ℝ) (A : ℕ) (a₁ a₂ : ℕ → ℕ → ℝ)
    (h : ∀ r, r < A * B → ∀ k, a₁ r k = a₂ r k) :
    lossVal B V D f mask t bt A a₁ = lossVal B V D f mask t bt A a₂ := by
  unfold lossVal
  exact lossFromLogits_congr B V A mask t bt _ _ fun r hr c =>
    shiftedLogits_anchor_congr B V D f a₁ a₂ t r (h r hr) c

/-- C7: with a single view the two contrast modes return the same loss on
every input, because both use anchor_count 1 and the concatenated contrast
feature restricted to the single anchor block equals the view-0 slice. -/
theorem supcon_mode_equiv (t bt : ℝ) (shape : List ℕ) (data : ℕ → ℝ)
    (labels : Option (List ℤ)) (maskArg : Option (ℕ → ℕ → ℝ))
    (hV : (shape.drop 1).headD 0 = 1) :
    forward ⟨t, "one", bt⟩ shape data labels maskArg
      = forward ⟨t, "all", bt⟩ shape data labels maskArg
    ∧ ∀ (B : ℕ) (f : ℕ → ℕ → ℕ → ℝ) (r k : ℕ), r < B →
        contrastFeature B f r k = f r 0 k := by
  constructor
  · by_cases h3 : shape.length < 3
    · rw [forward_rank_lt _ shape data labels maskArg h3,
        forward_rank_lt _ shape data labels maskArg h3]
    · cases hres : resolveMask (shape.headD 0) labels maskArg with
      | error e =>
          rw [forward_err_mask _ shape data labels maskArg e h3 hres,
            forward_err_mask _ shape data labels maskArg e h3 hres]
      | ok m =>
          rw [forward_ok_mask _ shape data labels maskArg m h3 hres,
            forward_ok_mask _ shape data labels maskArg m h3 hres]
          unfold modeDispatch
          rw [if_pos rfl, if_neg (show ¬("all" : String) = "one" by decide),
            if_pos rfl, hV]
          congr 1
          refine lossVal_anchor_congr _ 1 _ _ m t bt 1 _ _ fun r hr k => ?_
          have hrB : r < shape.headD 0 := by omega
          show flatFeature 1 (shape.drop 2).prod data r 0 k
            = contrastFeature (shape.headD 0)
                (flatFeature 1 (shape.drop 2).prod data) r k
          unfold contrastFeature
          rw [Nat.mod_eq_of_lt hrB, Nat.div_eq_of_lt hrB]
  · intro B f r k hr
    unfold contrastFeature
    rw [Nat.mod_eq_of_lt hr, Nat.div_eq_of_lt hr]

/-- Witness for C7 at shape [2, 1, 3] with zero data. -/
theorem supcon_mode_equiv_witness :
    forward ⟨1, "one", 1⟩ [2, 1, 3] (fun _ => 0) none none
      = forward ⟨1, "all", 1⟩ [2, 1, 3] (fun _ => 0) none none
    ∧ contrastFeature 2 (fun _ _ _ => (0 : ℝ)) 1 0
        = (fun _ _ _ => (0 : ℝ)) 1 0 0 :=
  ⟨(supcon_mode_equiv 1 1 [2, 1, 3] (fun _ => 0) none none rfl).1,
   (supcon_mode_equiv 1 1 [2, 1, 3] (fun _ => 0) none none rfl).2 2
     (fun _ _ _ => 0) 1 0 (by norm_num)⟩

/-- C4: a mask row without positives raises nothing: the call still returns
a value for every supplied mask, and the mean-of-positives of such a row is
literally the sum divided by the zero positive count; conversely any row of
a zero-one mask holding at least one positive after self-exclusion has a
nonzero divisor. -/
theorem supcon_zero_positive_rows (C : SupConLoss) (shape : List ℕ)
    (data : ℕ → ℝ) (mask : ℕ → ℕ → ℝ) (h3 : 3 ≤ shape.length)
    (hm : C.contrast_mode = "one" ∨ C.contrast_mode = "all") :
    (∃ v, forward C shape data none (some mask) = .ok v)
    ∧ (∀ (B V : ℕ) (L : ℕ → ℕ → ℝ) (r : ℕ), posCount B V mask r = 0 →
        meanLogProbPos B V mask L r
          = (∑ c ∈ Finset.range (V * B),
              maskedMask B mask r c * logProbOf B V L r c) / 0)
    ∧ (∀ (B V : ℕ) (r : ℕ), (∀ i j, mask i j = 0 ∨ mask i j = 1) →
        (∃ c, c < V * B ∧ maskedMask B mask r c = 1) →
        posCount B V mask r ≠ 0) := by
  refine ⟨?_, ?_, ?_⟩
  · rw [forward_ok_mask C shape data none (some mask) mask (by omega) rfl]
    unfold modeDispatch
    rcases hm with h1 | h1
    · rw [if_pos h1]
      exact ⟨_, rfl⟩
    · by_cases h2 : C.contrast_mode = "one"
      · rw [if_pos h2]
        exact ⟨_, rfl⟩
      · rw [if_neg h2, if_pos h1]
        exact ⟨_, rfl⟩
  · intro B V L r h
    unfold meanLogProbPos
    rw [h]
  · intro B V r h01 hex
    rcases hex with ⟨c0, hc0, hc1⟩
    refine ne_of_gt ?_
    unfold posCount
    refine Finset.sum_pos' (fun c _ => ?_)
      ⟨c0, Finset.mem_range.mpr hc0, by rw [hc1]; norm_num⟩
    unfold maskedMask tiledMask
    rcases h01 (r % B) (c % B) with h | h <;> rw [h]
    · rw [zero_mul]
    · rw [one_mul]
      exact logitsMask_nonneg r c

/-- Witness for C4: an all-zero mask is accepted without error and its row 0
divides by a zero positive count; the identity mask on one sample with two
views has a nonzero positive count in row 0. -/
theorem supcon_zero_positive_rows_witness :
    (∃ v, forward ⟨1, "all", 1⟩ [1, 2, 1] (fun _ => 0) none
        (some (fun _ _ => 0)) = .ok v)
    ∧ meanLogProbPos 1 2 (fun _ _ => 0) (fun _ _ => 0) 0
        = (∑ c ∈ Finset.range (2 * 1),
            maskedMask 1 (fun _ _ => 0) 0 c
              * logProbOf 1 2 (fun _ _ => 0) 0 c) / 0
    ∧ posCount 1 2 eyeMask 0 ≠ 0 :=
  ⟨(supcon_zero_positive_rows ⟨1, "all", 1⟩ [1, 2, 1] (fun _ => 0)
      (fun _ _ => 0) (by norm_num) (Or.inr rfl)).1,
   (supcon_zero_positive_rows ⟨1, "all", 1⟩ [1, 2, 1] (fun _ => 0)
      (fun _ _ => 0) (by norm_num) (Or.inr rfl)).2.1 1 2 (fun _ _ => 0) 0
      (by simp [posCount, maskedMask, tiledMask]),
   (supcon_zero_positive_rows ⟨1, "all", 1⟩ [1, 2, 1] (fun _ => 0) eyeMask
      (by norm_num) (Or.inr rfl)).2.2 1 2 0
      (fun i j => by unfold eyeMask; split
                     exacts [Or.inr rfl, Or.inl rfl])
      ⟨1, by norm_num, by norm_num [maskedMask, tiledMask, eyeMask,
        logitsMask]⟩⟩

end SupCon
